import Mathlib

/-!
Shallow embedding of the monkey-rs front end (src/lexer.rs, src/parser.rs,
src/ast.rs): a lexer producing tokens from a character buffer and a
recursive-descent parser producing a Program. Rust strings are modelled as
lists of characters; the Rust `String::len` (a byte count) is modelled by
summing the UTF-8 byte sizes of the characters. The Rust iterator protocol
(`fn next -> Option<Token>`) is modelled by a step function returning an
optional token paired with the successor state; the unbounded `while` loops
of the parser are modelled with explicit fuel, and `Outcome.fuelOut` for all
fuel values models divergence. The `assert_eq!` in `Parser::expect_peek`,
which aborts the process on mismatch, is modelled by `Outcome.aborted`.
-/

namespace MonkeyRs

/-- Embeds `enum LimiterToken` from src/lexer.rs. -/
inductive LimiterToken
  | Comma
  | Semicolon
  | LParen
  | RParen
  | LBrace
  | RBrace
deriving DecidableEq, Repr

/-- Embeds `enum Token` from src/lexer.rs. Identifier and Literal payloads
are the character lists of the Rust `String` payloads. -/
inductive Token
  | Illegal
  | Eof
  | Identifier (s : List Char)
  | Literal (s : List Char)
  | Limiter (l : LimiterToken)
  | Assign
  | Plus
  | Minus
  | Bang
  | Asterisk
  | Slash
  | LT
  | GT
  | EQ
  | NotEq
  | Function
  | Let
  | True
  | False
  | If
  | Else
  | Return
deriving DecidableEq, Repr

/-- Byte length of a character list under UTF-8, modelling Rust
`String::len` (which counts bytes, not characters). -/
def utf8Length (s : List Char) : Nat :=
  (s.map Char.utf8Size).sum

/-- Embeds `Token::len` from src/lexer.rs lines 38-57: the number the lexer
adds to its read cursor after emitting the token. Note `Illegal` and `Eof`
report length 0, and the payload-carrying variants report the Rust byte
length of their payload. -/
def Token.len : Token → Nat
  | .Illegal | .Eof => 0
  | .Identifier s | .Literal s => utf8Length s
  | .Limiter _ | .Assign | .Plus | .Minus | .Bang
  | .Asterisk | .Slash | .LT | .GT => 1
  | .Function | .If | .EQ | .NotEq => 2
  | .Let => 3
  | .True | .Else => 4
  | .False => 5
  | .Return => 6

/-- Embeds `is_letter` from src/lexer.rs: ASCII alphabetic or underscore. -/
def is_letter (ch : Char) : Bool :=
  ch.isAlpha || ch = '_'

/-- Embeds `is_digit` from src/lexer.rs, which calls Rust
`char::is_numeric`. The model restricts to ASCII decimal digits; every
input appearing in the claims and in the repository tests is ASCII, where
the two predicates agree. -/
def is_digit (ch : Char) : Bool :=
  ch.isDigit

/-- Embeds `is_whitespace` from src/lexer.rs: space, tab, newline,
carriage return. -/
def is_whitespace (ch : Char) : Bool :=
  ch = ' ' || ch = '\t' || ch = '\n' || ch = '\r'

/-- Embeds `look_up_identifier` from src/lexer.rs lines 73-84: resolve an
identifier spelling against the keyword table. -/
def look_up_identifier (ident : List Char) : Token :=
  if ident = ['f', 'n'] then Token.Function
  else if ident = ['l', 'e', 't'] then Token.Let
  else if ident = ['t', 'r', 'u', 'e'] then Token.True
  else if ident = ['f', 'a', 'l', 's', 'e'] then Token.False
  else if ident = ['i', 'f'] then Token.If
  else if ident = ['e', 'l', 's', 'e'] then Token.Else
  else if ident = ['r', 'e', 't', 'u', 'r', 'n'] then Token.Return
  else Token.Identifier ident

/-- Embeds `struct Lexer` from src/lexer.rs. The Rust field `ch` is a
cache of `input.chars().nth(read_position)`: it is re-read after every
cursor move, so at each observation point in `next` it equals the character
at the cursor and is represented implicitly here. -/
structure Lexer where
  input : List Char
  read_position : Nat
deriving DecidableEq, Repr

/-- Embeds `Lexer::from(String)` from src/lexer.rs lines 92-102: cursor at
position 0 (the initial `read_char` only fills the derived `ch` cache). -/
def Lexer.fromInput (input : List Char) : Lexer :=
  ⟨input, 0⟩

/-- Embeds `Lexer::peek_char_head`: the character one past the cursor. -/
def Lexer.peek_char_head (l : Lexer) : Option Char :=
  l.input.get? (l.read_position + 1)

/-- Embeds `Lexer::read_identifier`: maximal run of identifier characters
starting at the cursor. -/
def Lexer.read_identifier (l : Lexer) : List Char :=
  (l.input.drop l.read_position).takeWhile is_letter

/-- Embeds `Lexer::read_number`: maximal run of digit characters starting
at the cursor. -/
def Lexer.read_number (l : Lexer) : List Char :=
  (l.input.drop l.read_position).takeWhile is_digit

/-- Models the count computed by `Lexer::skip_white_spaces`: the number of
whitespace characters at the cursor. -/
def Lexer.white_space_count (l : Lexer) : Nat :=
  ((l.input.drop l.read_position).takeWhile is_whitespace).length

/-- The token classification switch inside `Lexer::next` (src/lexer.rs
lines 109-147), applied to the character `x` at the cursor of `l` (after
whitespace skipping). -/
def Lexer.classify (l : Lexer) (x : Char) : Token :=
  match x with
  | ',' => Token.Limiter LimiterToken.Comma
  | ';' => Token.Limiter LimiterToken.Semicolon
  | '(' => Token.Limiter LimiterToken.LParen
  | ')' => Token.Limiter LimiterToken.RParen
  | '{' => Token.Limiter LimiterToken.LBrace
  | '}' => Token.Limiter LimiterToken.RBrace
  | '+' => Token.Plus
  | '-' => Token.Minus
  | '=' => if l.peek_char_head = some '=' then Token.EQ else Token.Assign
  | '!' => if l.peek_char_head = some '=' then Token.NotEq else Token.Bang
  | '*' => Token.Asterisk
  | '/' => Token.Slash
  | '<' => Token.LT
  | '>' => Token.GT
  | _ =>
    if is_letter x then look_up_identifier l.read_identifier
    else if is_digit x then Token.Literal l.read_number
    else Token.Illegal

/-- Embeds `Lexer::next` (the `Iterator` implementation, src/lexer.rs lines
107-153): skip whitespace, classify the character at the cursor, advance
the cursor by the token length. An internally computed `Token::Eof` is
turned into the exhaustion signal `none` before the cursor advance, exactly
as the Rust code returns `None` before `increment_read_position`. -/
def Lexer.next (l : Lexer) : Option (Token × Lexer) :=
  let l1 : Lexer := { l with read_position := l.read_position + l.white_space_count }
  match l1.input.get? l1.read_position with
  | none => none
  | some x =>
    let token := l1.classify x
    some (token, { l1 with read_position := l1.read_position + token.len })

/-- Drains up to `fuel` tokens from the lexer. The Bool records whether the
stream reached its exhaustion signal (`Lexer::next` returning `none`)
within the fuel: `false` means the drain was cut off while tokens were
still being produced. -/
def runLexer : Nat → Lexer → List Token × Bool
  | 0, _ => ([], false)
  | fuel + 1, l =>
    match l.next with
    | none => ([], true)
    | some (t, l') =>
      let r := runLexer fuel l'
      (t :: r.1, r.2)

/-- Embeds `enum Expression` from src/ast.rs: the only variant in scope is
an identifier expression wrapping a token. -/
inductive Expression
  | Identifier (t : Token)
deriving DecidableEq, Repr

/-- Embeds `enum Statement` from src/ast.rs. -/
inductive Statement
  | Let (name : Expression) (value : Expression)
  | Return (value : Expression)
  | Expression (e : Expression)
deriving DecidableEq, Repr

/-- Embeds `struct Program` from src/ast.rs: an ordered list of
statements; nothing else (in particular, no diagnostics list exists). -/
structure Program where
  statements : List Statement
deriving DecidableEq, Repr

/-- Embeds `enum Precedence` from src/parser.rs lines 12-21. -/
inductive Precedence
  | Lowest
  | Equals
  | LessGreater
  | Sum
  | Product
  | Prefix
  | Call
deriving DecidableEq, Repr

/-- Embeds `struct Parser` from src/parser.rs: the owned lexer plus the
current token and the one-token lookahead. -/
structure Parser where
  lexer : Lexer
  curr_token : Option Token
  peek_token : Option Token
deriving DecidableEq, Repr

/-- Outcome of a parser operation: a normal result, the process abort
raised by the `assert_eq!` in `Parser::expect_peek`, or fuel exhaustion
(which, holding for every fuel value, models divergence of the Rust
loops). -/
inductive Outcome (α : Type)
  | done (a : α)
  | aborted
  | fuelOut
deriving DecidableEq, Repr

/-- Embeds `Parser::next_token` (src/parser.rs lines 58-61): retire the
current token, promote the lookahead, pull a fresh lookahead from the
lexer. -/
def Parser.next_token (p : Parser) : Parser :=
  match p.lexer.next with
  | none => { p with curr_token := p.peek_token, peek_token := none }
  | some (t, l') => { lexer := l', curr_token := p.peek_token, peek_token := some t }

/-- Embeds `Parser::new` (src/parser.rs lines 24-34): start with empty
token slots and advance twice. -/
def Parser.new (l : Lexer) : Parser :=
  (Parser.next_token (Parser.next_token ⟨l, none, none⟩))

/-- Embeds `Parser::curr_token_is`: false when the current slot is empty. -/
def Parser.curr_token_is (p : Parser) (other : Token) : Bool :=
  match p.curr_token with
  | some t => t = other
  | none => false

/-- Embeds `Parser::peek_token_is`: false when the lookahead is empty. -/
def Parser.peek_token_is (p : Parser) (other : Token) : Bool :=
  match p.peek_token with
  | some t => t = other
  | none => false

/-- Embeds `Parser::expect_peek` (src/parser.rs lines 77-85): when a
lookahead exists it is compared to the expected token with `assert_eq!`,
which aborts the process on mismatch (`Outcome.aborted`); on match the
parser advances; an empty lookahead does nothing. -/
def Parser.expect_peek (p : Parser) (other : Token) : Outcome Parser :=
  match p.peek_token with
  | some t => if t = other then Outcome.done p.next_token else Outcome.aborted
  | none => Outcome.done p

/-- Embeds `prefix_parsing_fn` (src/parser.rs lines 132-137): only the
identifier token has a prefix rule in scope. -/
def prefix_parsing_fn (token : Token) : Option Expression :=
  match token with
  | Token.Identifier ident => some (Expression.Identifier (Token.Identifier ident))
  | _ => none

/-- Embeds `Parser::parse_expression` (src/parser.rs lines 124-128): reads
the current token and applies the prefix rule; the precedence parameter is
received but the body never consults it. -/
def Parser.parse_expression (p : Parser) (precedence : Precedence) : Option Expression :=
  match p.curr_token with
  | none => none
  | some token => prefix_parsing_fn token

/-- Embeds the `while !self.curr_token_is(Semicolon) { self.next_token() }`
loops shared by `parse_return_statement` and `parse_let_statement`
(src/parser.rs lines 88-90 and 105-107), with explicit fuel. -/
def skip_to_semicolon : Nat → Parser → Outcome Parser
  | 0, _ => Outcome.fuelOut
  | fuel + 1, p =>
    if p.curr_token_is (Token.Limiter LimiterToken.Semicolon) then Outcome.done p
    else skip_to_semicolon fuel p.next_token

/-- Embeds `Parser::parse_return_statement` (src/parser.rs lines 87-94):
scan to the semicolon, then wrap the fixed dummy expression
`Expression::Identifier(Token::Assign)` in a Return statement. -/
def Parser.parse_return_statement (fuel : Nat) (p : Parser) :
    Outcome (Option Statement × Parser) :=
  match skip_to_semicolon fuel p with
  | Outcome.done p' =>
    Outcome.done (some (Statement.Return (Expression.Identifier Token.Assign)), p')
  | Outcome.aborted => Outcome.aborted
  | Outcome.fuelOut => Outcome.fuelOut

/-- Embeds `Parser::parse_let_statement` (src/parser.rs lines 96-112):
require an identifier in the lookahead (otherwise return `none` with the
state unchanged), advance, expect the assignment token via `expect_peek`,
scan to the semicolon, and build a Let statement whose value slot is the
fixed dummy expression `Expression::Identifier(Token::Assign)`. -/
def Parser.parse_let_statement (fuel : Nat) (p : Parser) :
    Outcome (Option Statement × Parser) :=
  match p.peek_token with
  | some (Token.Identifier s) =>
    match (p.next_token).expect_peek Token.Assign with
    | Outcome.done p2 =>
      match skip_to_semicolon fuel p2 with
      | Outcome.done p3 =>
        Outcome.done
          (some (Statement.Let (Expression.Identifier (Token.Identifier s))
            (Expression.Identifier Token.Assign)), p3)
      | Outcome.aborted => Outcome.aborted
      | Outcome.fuelOut => Outcome.fuelOut
    | Outcome.aborted => Outcome.aborted
    | Outcome.fuelOut => Outcome.fuelOut
  | _ => Outcome.done (none, p)

/-- Embeds `Parser::parse_expression_statement` (src/parser.rs lines
114-122): wrap the parsed expression, if any; the parser state is not
changed (`parse_expression` takes `&self`). -/
def Parser.parse_expression_statement (p : Parser) : Option Statement :=
  match p.parse_expression Precedence.Lowest with
  | some e => some (Statement.Expression e)
  | none => none

/-- Embeds `Parser::parse_statement` (src/parser.rs lines 50-56): dispatch
on the current token. -/
def Parser.parse_statement (fuel : Nat) (p : Parser) :
    Outcome (Option Statement × Parser) :=
  match p.curr_token with
  | some Token.Let => Parser.parse_let_statement fuel p
  | some Token.Return => Parser.parse_return_statement fuel p
  | _ => Outcome.done (p.parse_expression_statement, p)

/-- Embeds the `while self.curr_token.is_some()` loop of
`Parser::parse_program` (src/parser.rs lines 39-45), with explicit fuel:
parse a statement, push it when present, advance. -/
def parse_program_loop : Nat → Parser → List Statement → Outcome (List Statement × Parser)
  | 0, _, _ => Outcome.fuelOut
  | fuel + 1, p, acc =>
    match p.curr_token with
    | some _ =>
      match Parser.parse_statement fuel p with
      | Outcome.done (ost, p') =>
        parse_program_loop fuel p'.next_token
          (match ost with
           | some s => acc ++ [s]
           | none => acc)
      | Outcome.aborted => Outcome.aborted
      | Outcome.fuelOut => Outcome.fuelOut
    | none => Outcome.done (acc, p)

/-- Embeds `Parser::parse_program` (src/parser.rs lines 36-48). -/
def Parser.parse_program (fuel : Nat) (p : Parser) : Outcome (Program × Parser) :=
  match parse_program_loop fuel p [] with
  | Outcome.done (stmts, p') => Outcome.done (⟨stmts⟩, p')
  | Outcome.aborted => Outcome.aborted
  | Outcome.fuelOut => Outcome.fuelOut

/-- The whole front end on a character buffer: build a lexer, build a
parser from it (`Parser::new`), and run `parse_program`. -/
def parse_input (fuel : Nat) (input : List Char) : Outcome (Program × Parser) :=
  Parser.parse_program fuel (Parser.new (Lexer.fromInput input))

/-- The statement list of a completed parse, or `none` when the parse
aborted or ran out of fuel. -/
def parsedStatements (fuel : Nat) (input : List Char) : Option (List Statement) :=
  match parse_input fuel input with
  | Outcome.done (prog, _) => some prog.statements
  | _ => none

/-! Concrete inputs used by the claims. -/

/-- The characters of `let five = 5;`. -/
def letFiveInput : List Char :=
  ['l', 'e', 't', ' ', 'f', 'i', 'v', 'e', ' ', '=', ' ', '5', ';']

/-- The characters of `let x 5;` (identifier not followed by `=`). -/
def letX5Input : List Char :=
  ['l', 'e', 't', ' ', 'x', ' ', '5', ';']

/-- The characters of `let = 5;` (no identifier after `let`). -/
def letEq5Input : List Char :=
  ['l', 'e', 't', ' ', '=', ' ', '5', ';']

/-- The characters of `return 5` (no terminating semicolon). -/
def return5Input : List Char :=
  ['r', 'e', 't', 'u', 'r', 'n', ' ', '5']

/-- The characters of `a + b * c`. -/
def abcInput : List Char :=
  ['a', ' ', '+', ' ', 'b', ' ', '*', ' ', 'c']

/-- The parser state produced by `Parser::new` on the lexer for
`return 5`: both tokens drawn, lexer cursor at the end. -/
def return5Parser : Parser :=
  ⟨⟨return5Input, 8⟩, some Token.Return, some (Token.Literal ['5'])⟩

/-- The parser state the scan-to-semicolon loop of
`parse_return_statement` reaches on `return 5` after consuming every
token: both token slots empty, lexer exhausted. -/
def deadParser : Parser :=
  ⟨⟨return5Input, 8⟩, none, none⟩

/-! Helper lemmas. -/

/-- The keyword table never resolves a spelling to the Eof token. -/
theorem look_up_identifier_ne_eof (s : List Char) : look_up_identifier s ≠ Token.Eof := by
  intro h
  unfold look_up_identifier at h
  split_ifs at h

/-- The classification switch of `Lexer::next` never produces the Eof
token from an actual character. -/
theorem classify_ne_eof (l : Lexer) (x : Char) : l.classify x ≠ Token.Eof := by
  intro h
  unfold Lexer.classify at h
  repeat' split at h
  all_goals first
    | exact Token.noConfusion h
    | exact look_up_identifier_ne_eof _ h

/-- A token actually yielded by `Lexer::next` is never the Eof token: the
internally computed `Token::Eof` is converted to the exhaustion signal
before being yielded. -/
theorem Lexer.next_ne_eof {l l' : Lexer} {t : Token} (h : l.next = some (t, l')) :
    t ≠ Token.Eof := by
  simp only [Lexer.next] at h
  split at h
  · exact absurd h (by simp)
  · injection h with h1
    injection h1 with h2 h3
    exact h2 ▸ classify_ne_eof _ _

/-- Advancing the parser past an exhausted lexer with empty token slots is
a no-op. -/
theorem deadParser_fixed : deadParser.next_token = deadParser := by decide

/-- The scan-to-semicolon loop never finishes from the dead state: the
current slot is empty, so `curr_token_is(Semicolon)` is false forever. -/
theorem skip_to_semicolon_dead (n : Nat) :
    skip_to_semicolon n deadParser = Outcome.fuelOut := by
  induction n with
  | zero => rfl
  | succ m ih =>
    rw [skip_to_semicolon]
    rw [show deadParser.curr_token_is (Token.Limiter LimiterToken.Semicolon) = false
      from by decide]
    simpa [deadParser_fixed] using ih

/-- From the initial state on `return 5`, the scan-to-semicolon loop runs
out of any amount of fuel. -/
theorem skip_to_semicolon_return5 (n : Nat) :
    skip_to_semicolon n return5Parser = Outcome.fuelOut := by
  rcases n with _ | _ | m
  · rfl
  · rfl
  · show skip_to_semicolon (m + 2) return5Parser = Outcome.fuelOut
    have h2 : skip_to_semicolon (m + 2) return5Parser = skip_to_semicolon m deadParser := rfl
    rw [h2]
    exact skip_to_semicolon_dead m

/-! Claim theorems. -/

/-- C1. Failing-input evaluation for the claim that parsing never reaches
the abort branch: on `let x 5;` (identifier not followed by the assignment
token) `Parser::parse_program` reaches the `assert_eq!` in `expect_peek`
with lookahead `Literal("5")` against expected `Assign`, and the whole
parse aborts — for every amount of fuel sufficient to enter the statement
loop once. -/
theorem parse_program_aborts_on_malformed_let :
    ∀ fuel : Nat, parse_input (fuel + 1) letX5Input = Outcome.aborted :=
  fun _ => rfl

/-- C2. Failing-input evaluation for the claim that the token sequence is
finite on every input: on `@` the classification yields `Token::Illegal`,
whose declared length is 0, so the read cursor never advances and the
lexer yields the illegal token forever — draining with any fuel `n`
produces `n` illegal tokens and never reaches the exhaustion signal. -/
theorem lexer_diverges_on_at_sign :
    ∀ n : Nat, runLexer n (Lexer.fromInput ['@']) = (List.replicate n Token.Illegal, false) := by
  intro n
  induction n with
  | zero => rfl
  | succ m ih =>
    rw [runLexer]
    rw [show (Lexer.fromInput ['@']).next = some (Token.Illegal, Lexer.fromInput ['@'])
      from by decide]
    simp [ih, List.replicate_succ]

/-- C3. Failing-input evaluation for the claim that parsing a bounded
input always terminates: on `return 5` (no terminating semicolon) the
scan-to-semicolon loop of `parse_return_statement` keeps advancing after
end-of-input — the current-token slot becomes and stays empty, never equal
to a semicolon — so `parse_program` runs out of any amount of fuel,
modelling divergence of the Rust loop. -/
theorem parse_program_diverges_on_missing_semicolon :
    ∀ n : Nat, parse_input n return5Input = Outcome.fuelOut := by
  intro n
  rcases n with _ | m
  · rfl
  · have hstat : Parser.parse_statement m return5Parser = Outcome.fuelOut := by
      show Parser.parse_return_statement m return5Parser = Outcome.fuelOut
      unfold Parser.parse_return_statement
      rw [skip_to_semicolon_return5 m]
    have hloop : parse_program_loop (m + 1) return5Parser [] = Outcome.fuelOut := by
      rw [parse_program_loop,
        show return5Parser.curr_token = some Token.Return from rfl]
      dsimp only
      rw [hstat]
    show Parser.parse_program (m + 1) return5Parser = Outcome.fuelOut
    unfold Parser.parse_program
    rw [hloop]

/-- C4. Failing-input evaluation for the precedence claim: parsing
`a + b * c` produces three separate identifier expression statements
(`+` and `*` have no prefix rule, so those iterations contribute no
statement), not one addition whose right operand is a multiplication — no
infix node even exists in the Expression type. -/
theorem parse_a_plus_b_times_c_three_statements :
    parsedStatements 30 abcInput =
      some [Statement.Expression (Expression.Identifier (Token.Identifier ['a'])),
            Statement.Expression (Expression.Identifier (Token.Identifier ['b'])),
            Statement.Expression (Expression.Identifier (Token.Identifier ['c']))] := by
  decide

/-- C5 counterexample. On the empty input the lexer reaches exhaustion
immediately and the complete yielded token sequence is empty — it does not
end with an Eof token, refuting the claim that every token sequence ends
with exactly one yielded Eof token. -/
theorem lexer_empty_input_yields_no_eof :
    (runLexer 1 (Lexer.fromInput [])).2 = true ∧
      (runLexer 1 (Lexer.fromInput [])).1.getLast? ≠ some Token.Eof := by
  decide

/-- C5 amended. The lexer never yields an Eof token at all: exhaustion of
the input is signalled by `Lexer::next` returning the sequence-exhausted
signal (the internally computed Eof marker is consumed, not yielded), and
after that signal no further tokens are produced. -/
theorem lexer_never_yields_eof (fuel : Nat) (l : Lexer) :
    Token.Eof ∉ (runLexer fuel l).1 := by
  induction fuel generalizing l with
  | zero => simp [runLexer]
  | succ n ih =>
    rcases hn : l.next with _ | ⟨t, l'⟩
    · simp [runLexer, hn]
    · simp only [runLexer, hn, List.mem_cons]
      push_neg
      exact ⟨fun h => (Lexer.next_ne_eof hn) h.symm, ih l'⟩

/-- C6. Failing-input evaluation for the diagnostics claim: on `let = 5;`
(no identifier after `let`) the parse completes normally with an empty
statement list — the malformed let-binding is silently dropped, and the
parse result (a bare Program) records no error anywhere. -/
theorem parse_let_missing_identifier_silently_skipped :
    parsedStatements 20 letEq5Input = some [] := by
  decide

/-- C7. Every successfully parsed Let statement and every successfully
parsed Return statement carries the fixed dummy expression
`Expression::Identifier(Token::Assign)` in its value slot, whatever source
text stood between the assignment token (or `return`) and the
semicolon. -/
theorem let_and_return_value_slot_is_dummy (fuel : Nat) (p : Parser) :
    (∀ ost p' i v, Parser.parse_let_statement fuel p = Outcome.done (ost, p') →
        ost = some (Statement.Let i v) → v = Expression.Identifier Token.Assign) ∧
    (∀ ost p' v, Parser.parse_return_statement fuel p = Outcome.done (ost, p') →
        ost = some (Statement.Return v) → v = Expression.Identifier Token.Assign) := by
  constructor
  · intro ost p' i v h hs
    unfold Parser.parse_let_statement at h
    repeat' split at h
    all_goals first
      | exact Outcome.noConfusion h
      | · injection h with h1
          injection h1 with h2 h3
          rw [← h2] at hs
          first
            | exact Option.noConfusion hs
            | · injection hs with h4
                injection h4 with h5 h6
                exact h6.symm
  · intro ost p' v h hs
    unfold Parser.parse_return_statement at h
    repeat' split at h
    all_goals first
      | exact Outcome.noConfusion h
      | · injection h with h1
          injection h1 with h2 h3
          rw [← h2] at hs
          injection hs with h4
          injection h4 with h5
          exact h5.symm

/-- C7 witness: on `let five = 5;` the let-statement parser succeeds with
bound name `five`, and the theorem applies to give the dummy value slot. -/
theorem let_and_return_value_slot_is_dummy_witness :
    Parser.parse_let_statement 20 (Parser.new (Lexer.fromInput letFiveInput)) =
      Outcome.done
        (some (Statement.Let (Expression.Identifier (Token.Identifier ['f', 'i', 'v', 'e']))
          (Expression.Identifier Token.Assign)),
         ⟨⟨letFiveInput, 13⟩, some (Token.Limiter LimiterToken.Semicolon), none⟩) ∧
    Expression.Identifier Token.Assign = Expression.Identifier Token.Assign :=
  ⟨by decide,
   (let_and_return_value_slot_is_dummy 20 (Parser.new (Lexer.fromInput letFiveInput))).1
     (some (Statement.Let (Expression.Identifier (Token.Identifier ['f', 'i', 'v', 'e']))
       (Expression.Identifier Token.Assign)))
     ⟨⟨letFiveInput, 13⟩, some (Token.Limiter LimiterToken.Semicolon), none⟩
     (Expression.Identifier (Token.Identifier ['f', 'i', 'v', 'e']))
     (Expression.Identifier Token.Assign)
     (by decide) rfl⟩

/-- C8. Tokenizing `let five = 5;` yields exactly keyword-let,
identifier(five), assign, literal(5), semicolon, in that order, and the
drain then reaches the exhaustion signal: no further tokens follow. -/
theorem lex_let_five_exact_tokens :
    runLexer 14 (Lexer.fromInput letFiveInput) =
      ([Token.Let, Token.Identifier ['f', 'i', 'v', 'e'], Token.Assign,
        Token.Literal ['5'], Token.Limiter LimiterToken.Semicolon], true) := by
  decide

/-- C9. Lexing is deterministic: two lexers constructed from equal copies
of an input and drained with the same fuel produce identical token
sequences and identical exhaustion flags. -/
theorem lexing_deterministic (s t : List Char) (h : s = t) (fuel : Nat) :
    runLexer fuel (Lexer.fromInput s) = runLexer fuel (Lexer.fromInput t) := by
  rw [h]

/-- C9 witness: instantiated on two equal copies of the input `a`. -/
theorem lexing_deterministic_witness :
    (['a'] : List Char) = ['a'] ∧
      runLexer 3 (Lexer.fromInput ['a']) = runLexer 3 (Lexer.fromInput ['a']) :=
  ⟨rfl, lexing_deterministic ['a'] ['a'] rfl 3⟩

/-- C10. `Parser::parse_expression` ignores its precedence argument: for
every parser state the result is the same whatever precedence is passed —
it depends only on the current token through the prefix rule. -/
theorem parse_expression_ignores_precedence (p : Parser) (q r : Precedence) :
    p.parse_expression q = p.parse_expression r :=
  rfl

end MonkeyRs
